import Mathlib

/-!
Shallow embedding of the batch audio-feature fetching core of this repository.

Modelled source functions:
- `Spotify.get_track_ids_from_uris` and `Spotify.fetch_audio_features`
  (src/Spotify.py; src/unnamed/part_000 is the same code without the MCP path),
- `SpotifyMCPClient.get_audio_features` and `SpotifyMCPClient._call_mcp_tool`
  (src/spotify_mcp_client.py),
- `AudioFeatureValidator.validate_features`,
  `SpotifyAudioFeatures.get_track_ids_from_uris` and
  `SpotifyAudioFeatures.fetch_audio_features` (src/spotify_audio_features.py).

Modelling conventions:
- A Python audio-features record (a dict) is an association list from field
  name to an optional value; a key mapped to `none` models a JSON null value.
- The remote lookup `sp.audio_features(...)` is an oracle, a function from the
  index of the call (0 for the first remote call the fetcher makes, 1 for the
  second, ...) and the argument list to a response.  The four response
  constructors model: a normal return (a Python list, possibly empty, whose
  entries may be None), a `SpotifyException` with `http_status == 429`
  carrying an optional Retry-After header, any other `SpotifyException`
  (e.g. 403 Forbidden), and any other exception.
- Every remote call and every `time.sleep` duration is recorded in a `Trace`,
  in order, so that theorems can speak about the number of calls, their
  arguments and the waits.
- `SpotifyAudioFeatures.fetch_audio_features` can loop forever when the
  oracle keeps answering 429 (its `while` loop does not bound rate-limit
  retries), so its model takes a fuel parameter; running out of fuel yields
  the distinguished outcome `noFuel`, which corresponds to the Python loop
  still running.
-/

abbrev TrackId := String

/-- A Python audio-features dict: field name to optional (nullable) value. -/
abbrev Record := List (String × Option String)

/-- Outcome of one call of the remote lookup `sp.audio_features`. -/
inductive SpResponse where
  | ok (recs : List (Option Record))
  | rateLimited (retryAfter : Option Nat)
  | httpError (status : Nat)
  | otherError
deriving DecidableEq

/-- The remote lookup: call index and argument list to response. -/
abbrev Oracle := Nat → List TrackId → SpResponse

/-- Observable effects of a run: remote calls made (their arguments, in
order) and sleep durations (in order). -/
structure Trace where
  calls : List (List TrackId)
  sleeps : List Nat
deriving DecidableEq

/-- Python truthiness filter `if id` applied to an optional identifier:
both `None` and the empty string are falsy and are dropped. -/
def truthyId : Option TrackId → Option TrackId
  | none => none
  | some s => if s = "" then none else some s

/-- Fuel-indexed helper for `windows`: one unit of fuel per loop iteration.
When `0 < bs` each iteration drops at least one element, so fuel equal to
the length of the list is always enough. -/
def windowsGo {α : Type} (bs : Nat) : Nat → List α → List (List α)
  | _, [] => []
  | 0, _ :: _ => []
  | fuel + 1, a :: l2 =>
      if bs = 0 then []
      else (a :: l2).take bs :: windowsGo bs fuel ((a :: l2).drop bs)

/-- The successive slices `l[batch_start : batch_start + bs]` taken by the
`while batch_start < len(l)` loops of both fetchers.  The Python loop never
terminates when `bs = 0` and the list is nonempty; that branch returns `[]`
and every theorem about the fetchers assumes `0 < bs`. -/
def windows {α : Type} (bs : Nat) (l : List α) : List (List α) :=
  windowsGo bs l.length l

/-- Python `s.split(c)` for a single-character separator `c`, on the
character list of the string: the result is always nonempty, the empty
string splits to one empty segment, and separators at the ends produce
empty segments, exactly as in Python. -/
def splitOnChar (c : Char) : List Char → List (List Char)
  | [] => [[]]
  | x :: xs =>
      match splitOnChar c xs with
      | [] => [[]]
      | y :: ys => if x = c then [] :: y :: ys else (x :: y) :: ys

/-- Python `s.split(':')[-1]`: `split` always returns a nonempty list, so
the `getLastD` default is never used. -/
def pySplitLast (s : String) : String :=
  String.mk ((splitOnChar ':' s.toList).getLastD s.toList)

/-- Python `s.startswith(p)`: `p` is a prefix of `s`. -/
def pyStartsWith (s p : String) : Bool := p.toList.isPrefixOf s.toList

/-- A raw entry of the `spotify_track_uri` column, as the extraction
functions see it: a missing value (`pd.isna` is true), a string, or some
other non-string value (on which string methods raise `AttributeError`). -/
inductive PyVal where
  | na
  | str (s : String)
  | other
deriving DecidableEq

/-- Body of the loop of `get_track_ids_from_uris` in src/Spotify.py for one
entry: missing values give None; `uri.split(':')[-1]` on a non-string raises
`AttributeError`, caught and turned into None; for a string the last
colon-separated segment is taken, with no further validation. -/
def Spotify.extractTrackId : PyVal → Option String
  | PyVal.na => none
  | PyVal.str s => some (pySplitLast s)
  | PyVal.other => none

/-- `get_track_ids_from_uris` of src/Spotify.py: the appending `for` loop
over the input is a map of its body. -/
def Spotify.get_track_ids_from_uris (track_uris : List PyVal) : List (Option String) :=
  track_uris.map Spotify.extractTrackId

def schemeTag : String := "spotify:track:"

/-- The candidate identifier `SpotifyAudioFeatures.get_track_ids_from_uris`
computes for a string entry: the last colon segment when the entry starts
with the `spotify:track:` scheme tag, the entry itself otherwise. -/
def SpotifyAudioFeatures.candidateId (s : String) : String :=
  if pyStartsWith s schemeTag then pySplitLast s else s

/-- Body of the loop of `SpotifyAudioFeatures.get_track_ids_from_uris` for
one entry: missing values give None; `uri.startswith(...)` on a non-string
raises `AttributeError`, caught and turned into None; a string entry whose
candidate identifier does not have exactly 22 characters gives None. -/
def SpotifyAudioFeatures.extractTrackId : PyVal → Option String
  | PyVal.na => none
  | PyVal.other => none
  | PyVal.str s =>
      if (SpotifyAudioFeatures.candidateId s).length = 22 then
        some (SpotifyAudioFeatures.candidateId s)
      else none

/-- `SpotifyAudioFeatures.get_track_ids_from_uris` of
src/spotify_audio_features.py. -/
def SpotifyAudioFeatures.get_track_ids_from_uris (track_uris : List PyVal) :
    List (Option String) :=
  track_uris.map SpotifyAudioFeatures.extractTrackId

/-- The retry loop `for attempt in range(retries)` of `fetch_audio_features`
in src/Spotify.py, for one batch.  The first component is `features_batch`
when some attempt succeeded (`success = True`), `none` when all attempts
were used up.  A falsy (empty) result list is not a success and the loop
moves to the next attempt without sleeping; a 429 sleeps the Retry-After
value when present, otherwise `retry_delay`; every other exception sleeps
`retry_delay`.  Every branch consumes one iteration of the `for` loop. -/
def Spotify.attemptLoop (oracle : Oracle) (batchIds : List TrackId) (retryDelay : Nat) :
    Nat → Trace → Option (List (Option Record)) × Trace
  | 0, tr => (none, tr)
  | n + 1, tr =>
    match oracle tr.calls.length batchIds with
    | SpResponse.ok recs =>
        if recs.isEmpty then
          Spotify.attemptLoop oracle batchIds retryDelay n ⟨tr.calls ++ [batchIds], tr.sleeps⟩
        else (some recs, ⟨tr.calls ++ [batchIds], tr.sleeps⟩)
    | SpResponse.rateLimited ra =>
        Spotify.attemptLoop oracle batchIds retryDelay n
          ⟨tr.calls ++ [batchIds], tr.sleeps ++ [ra.getD retryDelay]⟩
    | SpResponse.httpError _ =>
        Spotify.attemptLoop oracle batchIds retryDelay n
          ⟨tr.calls ++ [batchIds], tr.sleeps ++ [retryDelay]⟩
    | SpResponse.otherError =>
        Spotify.attemptLoop oracle batchIds retryDelay n
          ⟨tr.calls ++ [batchIds], tr.sleeps ++ [retryDelay]⟩

/-- The `while batch_start < len(track_ids)` loop of `fetch_audio_features`
in src/Spotify.py, over the precomputed sequence of input slices.  Each
slice is filtered by truthiness; an empty filtered slice is skipped with no
output; otherwise the retry loop runs and the batch contributes either the
returned records or `[None] * len(batch_ids)`. -/
def Spotify.batchLoop (oracle : Oracle) (retries retryDelay : Nat) :
    List (List (Option TrackId)) → Trace → List (Option Record) × Trace
  | [], tr => ([], tr)
  | w :: ws, tr =>
    if (w.filterMap truthyId).isEmpty then
      Spotify.batchLoop oracle retries retryDelay ws tr
    else
      match Spotify.attemptLoop oracle (w.filterMap truthyId) retryDelay retries tr with
      | (some recs, tr2) =>
          let rest := Spotify.batchLoop oracle retries retryDelay ws tr2
          (recs ++ rest.1, rest.2)
      | (none, tr2) =>
          let rest := Spotify.batchLoop oracle retries retryDelay ws tr2
          (List.replicate (w.filterMap truthyId).length none ++ rest.1, rest.2)

def successStr : String := "Success"

def audioToolName : String := "get_audio_features"

/-- `SpotifyMCPClient._call_mcp_tool` of src/spotify_mcp_client.py: a
placeholder that always returns the string literal Success. -/
def SpotifyMCPClient.call_mcp_tool (_toolName : String) : Option String :=
  some successStr

/-- `SpotifyMCPClient.get_audio_features` of src/spotify_mcp_client.py.
`jsonLoads` models the external `json.loads`: `none` is a raised
`JSONDecodeError`, which the enclosing `try` catches, returning
`[None] * len(track_ids)`; a falsy (absent or empty) tool result also
returns `[None] * len(track_ids)`. -/
def SpotifyMCPClient.get_audio_features
    (jsonLoads : String → Option (List (Option Record)))
    (track_ids : List (Option TrackId)) : List (Option Record) :=
  match SpotifyMCPClient.call_mcp_tool audioToolName with
  | some r =>
      if r = "" then List.replicate track_ids.length none
      else
        match jsonLoads r with
        | some parsed => parsed
        | none => List.replicate track_ids.length none
  | none => List.replicate track_ids.length none

/-- `fetch_audio_features` of src/Spotify.py.  With `use_mcp` the MCP client
is constructed (which cannot fail) and its `get_audio_features` result is
returned; that method catches every exception internally, so the
`except ... use_mcp=False` fallback recursion is unreachable.  Without
`use_mcp` the traditional spotipy loop runs. -/
def Spotify.fetch_audio_features (jsonLoads : String → Option (List (Option Record)))
    (oracle : Oracle) (track_ids : List (Option TrackId))
    (batch_size retries retry_delay : Nat) (use_mcp : Bool) :
    List (Option Record) × Trace :=
  if use_mcp then (SpotifyMCPClient.get_audio_features jsonLoads track_ids, ⟨[], []⟩)
  else Spotify.batchLoop oracle retries retry_delay (windows batch_size track_ids) ⟨[], []⟩

/-- `AudioFeatureValidator.REQUIRED_FEATURES` of
src/spotify_audio_features.py. -/
def AudioFeatureValidator.REQUIRED_FEATURES : List String :=
  ["danceability", "energy", "key", "loudness", "mode",
   "speechiness", "acousticness", "instrumentalness",
   "liveness", "valence", "tempo", "duration_ms"]

/-- `AudioFeatureValidator.validate_features`: a falsy (empty) dict fails;
otherwise every required feature must be a present key with a non-null
value. -/
def AudioFeatureValidator.validate_features (features : Record) : Bool :=
  if features.isEmpty then false
  else AudioFeatureValidator.REQUIRED_FEATURES.all fun k =>
    match features.lookup k with
    | some (some _) => true
    | _ => false

/-- Python `not f or self.validator.validate_features(f)` for one entry `f`
of `features_batch`: a falsy entry (None or an empty dict) passes without
validation. -/
def SpotifyAudioFeatures.entryOk : Option Record → Bool
  | none => true
  | some r => r.isEmpty || AudioFeatureValidator.validate_features r

/-- The acceptance test of `SpotifyAudioFeatures.fetch_audio_features`:
`features_batch and all(not f or validate_features(f) for f in
features_batch)` — the batch list must be truthy (nonempty) and each entry
must pass `entryOk`. -/
def SpotifyAudioFeatures.acceptBatch (recs : List (Option Record)) : Bool :=
  !recs.isEmpty && recs.all SpotifyAudioFeatures.entryOk

/-- Outcome of the inner `while not success and retry_count < max_retries`
loop of `SpotifyAudioFeatures.fetch_audio_features` for one batch:
`success` with the accepted `features_batch`; `failedLoop` when the loop
condition fails with `success` still False (only possible when
`max_retries = 0`); `raised` when `SpotifyAudioFeaturesError` propagates
out; `noFuel` when the modelling fuel ran out (the Python loop is still
running). -/
inductive SafStep where
  | success (recs : List (Option Record)) (tr : Trace)
  | failedLoop (tr : Trace)
  | raised (tr : Trace)
  | noFuel
deriving DecidableEq

/-- The inner retry loop of `SpotifyAudioFeatures.fetch_audio_features`.
An accepted response sets `success`; a rejected response raises
`SpotifyAudioFeaturesError` inside the `try`, which the generic
`except Exception` catches: `retry_count` is incremented, the error is
re-raised when `retry_count == max_retries`, otherwise the loop sleeps
`retry_delay * retry_count` and retries.  A 429 sleeps Retry-After (or
`retry_delay`) and does not touch `retry_count`; every other
`SpotifyException` and every other exception behaves like a rejected
response. -/
def SpotifyAudioFeatures.attemptLoop (oracle : Oracle) (batchIds : List TrackId)
    (maxRetries retryDelay : Nat) : Nat → Nat → Trace → SafStep
  | 0, rc, tr => if rc < maxRetries then SafStep.noFuel else SafStep.failedLoop tr
  | fuel + 1, rc, tr =>
    if rc < maxRetries then
      match oracle tr.calls.length batchIds with
      | SpResponse.ok recs =>
          if SpotifyAudioFeatures.acceptBatch recs then
            SafStep.success recs ⟨tr.calls ++ [batchIds], tr.sleeps⟩
          else if rc + 1 = maxRetries then SafStep.raised ⟨tr.calls ++ [batchIds], tr.sleeps⟩
          else
            SpotifyAudioFeatures.attemptLoop oracle batchIds maxRetries retryDelay fuel (rc + 1)
              ⟨tr.calls ++ [batchIds], tr.sleeps ++ [retryDelay * (rc + 1)]⟩
      | SpResponse.rateLimited ra =>
          SpotifyAudioFeatures.attemptLoop oracle batchIds maxRetries retryDelay fuel rc
            ⟨tr.calls ++ [batchIds], tr.sleeps ++ [ra.getD retryDelay]⟩
      | SpResponse.httpError _ =>
          if rc + 1 = maxRetries then SafStep.raised ⟨tr.calls ++ [batchIds], tr.sleeps⟩
          else
            SpotifyAudioFeatures.attemptLoop oracle batchIds maxRetries retryDelay fuel (rc + 1)
              ⟨tr.calls ++ [batchIds], tr.sleeps ++ [retryDelay * (rc + 1)]⟩
      | SpResponse.otherError =>
          if rc + 1 = maxRetries then SafStep.raised ⟨tr.calls ++ [batchIds], tr.sleeps⟩
          else
            SpotifyAudioFeatures.attemptLoop oracle batchIds maxRetries retryDelay fuel (rc + 1)
              ⟨tr.calls ++ [batchIds], tr.sleeps ++ [retryDelay * (rc + 1)]⟩
    else SafStep.failedLoop tr

/-- Overall outcome of `SpotifyAudioFeatures.fetch_audio_features`: a normal
return, a propagated `SpotifyAudioFeaturesError`, or out of modelling
fuel. -/
inductive SafRun where
  | ok (out : List (Option Record)) (tr : Trace)
  | raised (tr : Trace)
  | noFuel
deriving DecidableEq

/-- The outer batch loop of `SpotifyAudioFeatures.fetch_audio_features`:
slices are filtered by truthiness and empty filtered slices are skipped; a
successful batch appends `features_batch`, a batch whose loop exited with
`success` False appends `[None] * len(batch_ids)`, and a raised
`SpotifyAudioFeaturesError` propagates, abandoning the remaining batches. -/
def SpotifyAudioFeatures.batchLoop (oracle : Oracle) (maxRetries retryDelay fuel : Nat) :
    List (List (Option TrackId)) → Trace → SafRun
  | [], tr => SafRun.ok [] tr
  | w :: ws, tr =>
    if (w.filterMap truthyId).isEmpty then
      SpotifyAudioFeatures.batchLoop oracle maxRetries retryDelay fuel ws tr
    else
      match SpotifyAudioFeatures.attemptLoop oracle (w.filterMap truthyId) maxRetries retryDelay fuel 0 tr with
      | SafStep.success recs tr2 =>
          match SpotifyAudioFeatures.batchLoop oracle maxRetries retryDelay fuel ws tr2 with
          | SafRun.ok rest tr3 => SafRun.ok (recs ++ rest) tr3
          | r => r
      | SafStep.failedLoop tr2 =>
          match SpotifyAudioFeatures.batchLoop oracle maxRetries retryDelay fuel ws tr2 with
          | SafRun.ok rest tr3 => SafRun.ok (List.replicate (w.filterMap truthyId).length none ++ rest) tr3
          | r => r
      | SafStep.raised tr2 => SafRun.raised tr2
      | SafStep.noFuel => SafRun.noFuel

/-- `SpotifyAudioFeatures.fetch_audio_features` of
src/spotify_audio_features.py.  The constructor caps the batch size at the
API limit of 100 (`min(batch_size, 100)`); the progress callback defaults to
None and is not modelled.  `fuel` bounds the number of iterations of each
batch's inner retry loop (the loop is unbounded in Python under persistent
rate limiting). -/
def SpotifyAudioFeatures.fetch_audio_features (oracle : Oracle)
    (track_ids : List (Option TrackId))
    (batch_size max_retries retry_delay fuel : Nat) : SafRun :=
  SpotifyAudioFeatures.batchLoop oracle max_retries retry_delay fuel
    (windows (min batch_size 100) track_ids) ⟨[], []⟩

/-- The normal-return payload of `SafRun`, when there is one. -/
def SafRun.returned : SafRun → Option (List (Option Record))
  | SafRun.ok out _ => some out
  | _ => none

def idA : TrackId := "a"

def idB : TrackId := "b"

def idC : TrackId := "c"

def abcStr : String := "abc"

/-- A record carrying every required feature field, with non-null values:
the shape of a fully valid remote response entry. -/
def fullRec (s : String) : Record :=
  AudioFeatureValidator.REQUIRED_FEATURES.map fun k => (k, some s)

/-- A model of `json.loads` that fails on every input; only its value on
the string Success matters to the theorems that take a parser argument. -/
def noParse : String → Option (List (Option Record)) := fun _ => none

/-- A lookup that raises a generic (non-HTTP) exception on every call. -/
def alwaysOtherErr : Oracle := fun _ _ => SpResponse.otherError

/-- A lookup that raises `SpotifyException` with status 403 Forbidden on
every call. -/
def alwaysForbidden : Oracle := fun _ _ => SpResponse.httpError 403

/-- A lookup that raises `SpotifyException` with status 500 on every
call. -/
def alwaysServerErr : Oracle := fun _ _ => SpResponse.httpError 500

/-- A lookup that is rate limited on its first two calls (the first with a
Retry-After header of 7, the second without one) and then answers with one
fully valid record per requested identifier. -/
def rlTwiceOracle : Oracle := fun k args =>
  if k = 0 then SpResponse.rateLimited (some 7)
  else if k = 1 then SpResponse.rateLimited none
  else SpResponse.ok (args.map fun s => some (fullRec s))

/-- A lookup that is rate limited (Retry-After 7) on its first three calls
and then answers with one fully valid record per requested identifier. -/
def rlThriceOracle : Oracle := fun k args =>
  if k < 3 then SpResponse.rateLimited (some 7)
  else SpResponse.ok (args.map fun s => some (fullRec s))

/-- A lookup that fails with a generic exception on its first three calls
and then answers with one fully valid record per requested identifier. -/
def failThriceOracle : Oracle := fun k args =>
  if k < 3 then SpResponse.otherError
  else SpResponse.ok (args.map fun s => some (fullRec s))

/-- A lookup that always returns a single-entry list holding an empty
record. -/
def emptyRecOracle : Oracle := fun _ _ => SpResponse.ok [some []]

/-- A deterministic echoing lookup: one fully valid record per requested
identifier, on every call. -/
def echoFullOracle : Oracle := fun _ args =>
  SpResponse.ok (args.map fun s => some (fullRec s))

/-- A nonempty record carrying only one of the twelve required feature
fields, and with a null value at that: it fails validation. -/
def oneFieldRec : Record := [("danceability", none)]

/-- A lookup that always returns a single-entry list holding a nonempty
record that fails validation. -/
def alwaysInvalidOracle : Oracle := fun _ _ => SpResponse.ok [some oneFieldRec]

theorem windowsGo_adequate {α : Type} (bs : Nat) (hbs : bs ≠ 0) :
    ∀ f1 f2 (l : List α), l.length ≤ f1 → l.length ≤ f2 →
      windowsGo bs f1 l = windowsGo bs f2 l := by
  intro f1
  induction f1 with
  | zero =>
      intro f2 l h1 _
      have hl : l = [] := List.eq_nil_of_length_eq_zero (Nat.le_zero.mp h1)
      subst hl
      cases f2 <;> rfl
  | succ f1 ih =>
      intro f2 l h1 h2
      match l with
      | [] => cases f2 <;> rfl
      | a :: l2 =>
          match f2 with
          | 0 => simp at h2
          | f2 + 1 =>
              simp only [windowsGo, if_neg hbs]
              have hd : ((a :: l2).drop bs).length ≤ f1 := by
                simp only [List.length_drop, List.length_cons]
                simp only [List.length_cons] at h1
                omega
              have hd2 : ((a :: l2).drop bs).length ≤ f2 := by
                simp only [List.length_drop, List.length_cons]
                simp only [List.length_cons] at h2
                omega
              rw [ih _ _ hd hd2]

theorem windows_nil {α : Type} (bs : Nat) : windows bs ([] : List α) = [] := rfl

theorem windows_cons {α : Type} (bs : Nat) (hbs : bs ≠ 0) (a : α) (l2 : List α) :
    windows bs (a :: l2) = (a :: l2).take bs :: windows bs ((a :: l2).drop bs) := by
  show windowsGo bs (l2.length + 1) (a :: l2) = _
  simp only [windowsGo, if_neg hbs]
  rw [windowsGo_adequate bs hbs l2.length ((a :: l2).drop bs).length ((a :: l2).drop bs)]
  · rfl
  · simp only [List.length_drop, List.length_cons]
    omega
  · exact Nat.le_refl _

theorem join_windows {α : Type} (bs : Nat) (hbs : bs ≠ 0) :
    ∀ n (l : List α), l.length ≤ n → (windows bs l).flatten = l := by
  intro n
  induction n with
  | zero =>
      intro l hl
      have : l = [] := List.eq_nil_of_length_eq_zero (Nat.le_zero.mp hl)
      subst this
      simp [windows_nil]
  | succ n ih =>
      intro l hl
      match l with
      | [] => simp [windows_nil]
      | a :: l2 =>
          rw [windows_cons bs hbs, List.flatten_cons, ih]
          · exact List.take_append_drop bs (a :: l2)
          · simp only [List.length_drop, List.length_cons]
            simp only [List.length_cons] at hl
            omega

theorem mem_of_mem_windows {α : Type} (bs : Nat) (hbs : bs ≠ 0) (l : List α)
    (w : List α) (hw : w ∈ windows bs l) (x : α) (hx : x ∈ w) : x ∈ l := by
  have hj : x ∈ (windows bs l).flatten := List.mem_flatten.mpr ⟨w, hw, hx⟩
  rwa [join_windows bs hbs l.length l (Nat.le_refl _)] at hj

theorem windows_ne_nil {α : Type} (bs : Nat) (hbs : bs ≠ 0) :
    ∀ n (l : List α), l.length ≤ n → ∀ w ∈ windows bs l, w ≠ [] := by
  intro n
  induction n with
  | zero =>
      intro l hl
      have : l = [] := List.eq_nil_of_length_eq_zero (Nat.le_zero.mp hl)
      subst this
      simp [windows_nil]
  | succ n ih =>
      intro l hl w hw
      match l with
      | [] => simp [windows_nil] at hw
      | a :: l2 =>
          rw [windows_cons bs hbs] at hw
          rcases List.mem_cons.mp hw with h | h
      
          · subst h
            have : bs ≠ 0 := hbs
            match bs with
            | b + 1 => simp [List.take_cons]
          · refine ih ((a :: l2).drop bs) ?_ w h
            simp only [List.length_drop, List.length_cons]
            simp only [List.length_cons] at hl
            omega

theorem windows_map {α β : Type} (bs : Nat) (hbs : bs ≠ 0) (f : α → β) :
    ∀ n (l : List α), l.length ≤ n →
      windows bs (l.map f) = (windows bs l).map (List.map f) := by
  intro n
  induction n with
  | zero =>
      intro l hl
      have : l = [] := List.eq_nil_of_length_eq_zero (Nat.le_zero.mp hl)
      subst this
      simp [windows_nil]
  | succ n ih =>
      intro l hl
      match l with
      | [] => simp [windows_nil]
      | a :: l2 =>
          rw [windows_cons bs hbs a l2, List.map_cons (List.map f)]
          rw [show (a :: l2).map f = f a :: l2.map f from List.map_cons f a l2]
          rw [windows_cons bs hbs (f a) (l2.map f)]
          have hlen : ((a :: l2).drop bs).length ≤ n := by
            simp only [List.length_drop, List.length_cons]
            simp only [List.length_cons] at hl
            omega
          rw [← List.map_cons f a l2, ← List.map_take, ← List.map_drop, ih _ hlen]

theorem Spotify.attemptLoop_const_other (oracle : Oracle) (b : List TrackId) (d : Nat)
    (h : ∀ k, oracle k b = SpResponse.otherError) :
    ∀ n (tr : Trace), Spotify.attemptLoop oracle b d n tr =
      (none, ⟨tr.calls ++ List.replicate n b, tr.sleeps ++ List.replicate n d⟩) := by
  intro n
  induction n with
  | zero => intro tr; simp [Spotify.attemptLoop]
  | succ n ih =>
      intro tr
      simp only [Spotify.attemptLoop, h, ih]
      simp [List.replicate_succ, List.append_assoc]

theorem Spotify.attemptLoop_const_http (oracle : Oracle) (b : List TrackId) (d st : Nat)
    (h : ∀ k, oracle k b = SpResponse.httpError st) :
    ∀ n (tr : Trace), Spotify.attemptLoop oracle b d n tr =
      (none, ⟨tr.calls ++ List.replicate n b, tr.sleeps ++ List.replicate n d⟩) := by
  intro n
  induction n with
  | zero => intro tr; simp [Spotify.attemptLoop]
  | succ n ih =>
      intro tr
      simp only [Spotify.attemptLoop, h, ih]
      simp [List.replicate_succ, List.append_assoc]

theorem Spotify.attemptLoop_some_exists (oracle : Oracle) (b : List TrackId) (d : Nat) :
    ∀ n (tr : Trace) recs tr2, Spotify.attemptLoop oracle b d n tr = (some recs, tr2) →
      ∃ k, oracle k b = SpResponse.ok recs ∧ recs.isEmpty = false := by
  intro n
  induction n with
  | zero => intro tr recs tr2 h; simp [Spotify.attemptLoop] at h
  | succ n ih =>
      intro tr recs tr2 h
      cases ho : oracle tr.calls.length b with
      | ok recs0 =>
          simp only [Spotify.attemptLoop, ho] at h
          by_cases he : recs0.isEmpty
          · rw [if_pos he] at h
            exact ih _ recs tr2 h
          · rw [if_neg he] at h
            have h2 : recs0 = recs := Option.some.inj (congrArg Prod.fst h)
            refine ⟨tr.calls.length, ?_, ?_⟩
            · rw [← h2]; exact ho
            · rw [← h2]; simpa using he
      | rateLimited ra =>
          simp only [Spotify.attemptLoop, ho] at h
          exact ih _ recs tr2 h
      | httpError st =>
          simp only [Spotify.attemptLoop, ho] at h
          exact ih _ recs tr2 h
      | otherError =>
          simp only [Spotify.attemptLoop, ho] at h
          exact ih _ recs tr2 h

theorem Spotify.batchLoop_skip (oracle : Oracle) (r d : Nat) :
    ∀ ws (tr : Trace), (∀ w ∈ ws, (w.filterMap truthyId).isEmpty = true) →
      Spotify.batchLoop oracle r d ws tr = ([], tr) := by
  intro ws
  induction ws with
  | nil => intro tr _; rfl
  | cons w ws ih =>
      intro tr h
      have hw : (w.filterMap truthyId).isEmpty = true := h w (List.mem_cons_self w ws)
      simp only [Spotify.batchLoop, hw, if_pos]
      exact ih tr fun w2 hw2 => h w2 (List.mem_cons_of_mem w hw2)

theorem sum_filterMap_lengths {α β : Type} (f : α → Option β) :
    ∀ ws : List (List α),
      (ws.map fun w => (w.filterMap f).length).sum = (ws.flatten.filterMap f).length := by
  intro ws
  induction ws with
  | nil => rfl
  | cons w ws ih =>
      simp [List.flatten_cons, List.filterMap_append, ih]

theorem Spotify.batchLoop_length (oracle : Oracle) (r d : Nat)
    (H : ∀ k args recs, oracle k args = SpResponse.ok recs → recs.isEmpty = false →
      recs.length = args.length) :
    ∀ ws (tr : Trace), (Spotify.batchLoop oracle r d ws tr).1.length =
      (ws.map fun w => (w.filterMap truthyId).length).sum := by
  intro ws
  induction ws with
  | nil => intro tr; rfl
  | cons w ws ih =>
      intro tr
      by_cases he : (w.filterMap truthyId).isEmpty
      · have h0 : (w.filterMap truthyId).length = 0 := by
          rw [List.isEmpty_iff.mp he]
          rfl
        simp only [Spotify.batchLoop, if_pos he, ih, List.map_cons, List.sum_cons, h0,
          Nat.zero_add]
      · cases hA : Spotify.attemptLoop oracle (w.filterMap truthyId) d r tr with
        | mk res tr2 =>
            cases res with
            | some recs =>
                have hk := Spotify.attemptLoop_some_exists oracle (w.filterMap truthyId) d r tr
                  recs tr2 hA
                rcases hk with ⟨k, hok, hne⟩
                have hlen : recs.length = (w.filterMap truthyId).length := H k _ recs hok hne
                simp only [Spotify.batchLoop, if_neg he, hA]
                simp [hlen, ih]
            | none =>
                simp only [Spotify.batchLoop, if_neg he, hA]
                simp [ih]

theorem filterMap_truthy_map_some (w : List TrackId) (h : ∀ s ∈ w, s ≠ "") :
    (w.map some).filterMap truthyId = w := by
  induction w with
  | nil => rfl
  | cons a w ih =>
      have ha : a ≠ "" := h a (List.mem_cons_self a w)
      simp only [List.map_cons, List.filterMap_cons, truthyId, if_neg ha]
      rw [ih fun s hs => h s (List.mem_cons_of_mem a hs)]

theorem Spotify.batchLoop_echo (oracle : Oracle) (rec : TrackId → Record)
    (retries d : Nat) (hr : retries ≠ 0)
    (Hecho : ∀ k args, oracle k args = SpResponse.ok (args.map fun s => some (rec s))) :
    ∀ ws (tr : Trace), (∀ w ∈ ws, w ≠ [] ∧ ∀ s ∈ w, s ≠ "") →
      Spotify.batchLoop oracle retries d (ws.map (List.map some)) tr =
        ((ws.map fun w => w.map fun s => some (rec s)).flatten,
          ⟨tr.calls ++ ws, tr.sleeps⟩) := by
  intro ws
  induction ws with
  | nil => intro tr _; simp [Spotify.batchLoop]
  | cons w ws ih =>
      intro tr h
      obtain ⟨hwne, hwstr⟩ := h w (List.mem_cons_self w ws)
      have hfm : ((w.map some).filterMap truthyId) = w := filterMap_truthy_map_some w hwstr
      have hne : w.isEmpty = false := by
        cases w
        · exact absurd rfl hwne
        · rfl
      have hmapne : (w.map fun s => some (rec s)).isEmpty = false := by
        cases w
        · exact absurd rfl hwne
        · rfl
      cases retries with
      | zero => exact absurd rfl hr
      | succ m =>
          have hstep : Spotify.attemptLoop oracle w d (m + 1) tr =
              (some (w.map fun s => some (rec s)), ⟨tr.calls ++ [w], tr.sleeps⟩) := by
            simp only [Spotify.attemptLoop, Hecho, hmapne]
            rfl
          simp only [List.map_cons, Spotify.batchLoop, hfm, hne, Bool.false_eq_true,
            if_false, hstep]
          rw [ih ⟨tr.calls ++ [w], tr.sleeps⟩ fun w2 hw2 => h w2 (List.mem_cons_of_mem w hw2)]
          simp [List.append_assoc]

theorem Spotify.batchLoop_single_fail (oracle : Oracle) (r d : Nat)
    (w : List (Option TrackId)) (tr tr2 : Trace)
    (hne : (w.filterMap truthyId).isEmpty = false)
    (hA : Spotify.attemptLoop oracle (w.filterMap truthyId) d r tr = (none, tr2)) :
    Spotify.batchLoop oracle r d [w] tr =
      (List.replicate (w.filterMap truthyId).length none, tr2) := by
  simp only [Spotify.batchLoop, hne, Bool.false_eq_true, if_false, hA]
  simp

theorem SpotifyAudioFeatures.attemptLoop_rl_step (oracle : Oracle) (b : List TrackId)
    (m d fuel rc : Nat) (tr : Trace) (hrc : rc < m) (ra : Option Nat)
    (ho : oracle tr.calls.length b = SpResponse.rateLimited ra) :
    SpotifyAudioFeatures.attemptLoop oracle b m d (fuel + 1) rc tr =
      SpotifyAudioFeatures.attemptLoop oracle b m d fuel rc
        ⟨tr.calls ++ [b], tr.sleeps ++ [ra.getD d]⟩ := by
  simp only [SpotifyAudioFeatures.attemptLoop, if_pos hrc, ho]

theorem SpotifyAudioFeatures.attemptLoop_accept_step (oracle : Oracle) (b : List TrackId)
    (m d fuel rc : Nat) (tr : Trace) (hrc : rc < m) (recs : List (Option Record))
    (ho : oracle tr.calls.length b = SpResponse.ok recs)
    (hacc : SpotifyAudioFeatures.acceptBatch recs = true) :
    SpotifyAudioFeatures.attemptLoop oracle b m d (fuel + 1) rc tr =
      SafStep.success recs ⟨tr.calls ++ [b], tr.sleeps⟩ := by
  simp only [SpotifyAudioFeatures.attemptLoop, if_pos hrc, ho, hacc, if_true]

theorem SpotifyAudioFeatures.attemptLoop_reject_step (oracle : Oracle) (b : List TrackId)
    (m d fuel rc : Nat) (tr : Trace) (hrc2 : rc + 1 < m) (recs : List (Option Record))
    (ho : oracle tr.calls.length b = SpResponse.ok recs)
    (hacc : SpotifyAudioFeatures.acceptBatch recs = false) :
    SpotifyAudioFeatures.attemptLoop oracle b m d (fuel + 1) rc tr =
      SpotifyAudioFeatures.attemptLoop oracle b m d fuel (rc + 1)
        ⟨tr.calls ++ [b], tr.sleeps ++ [d * (rc + 1)]⟩ := by
  have hrc : rc < m := Nat.lt_of_succ_lt hrc2
  have hne : rc + 1 ≠ m := Nat.ne_of_lt hrc2
  simp only [SpotifyAudioFeatures.attemptLoop, if_pos hrc, ho, hacc, Bool.false_eq_true,
    if_false, if_neg hne]

theorem SpotifyAudioFeatures.batchLoop_single_success (oracle : Oracle)
    (m d fuel : Nat) (w : List (Option TrackId)) (tr tr2 : Trace)
    (out : List (Option Record))
    (hne : (w.filterMap truthyId).isEmpty = false)
    (hA : SpotifyAudioFeatures.attemptLoop oracle (w.filterMap truthyId) m d fuel 0 tr =
      SafStep.success out tr2) :
    SpotifyAudioFeatures.batchLoop oracle m d fuel [w] tr = SafRun.ok out tr2 := by
  simp only [SpotifyAudioFeatures.batchLoop, hne, Bool.false_eq_true, if_false, hA]
  simp

/-- Claim C1, counterexample: the batch fetcher does not return one output
slot per input slot.  On the input [None] (one absent identifier) the
traditional fetcher of src/Spotify.py returns the empty list: the whole
window is skipped with no output, so len(output) = 0 while len(input) = 1,
and no absent marker is emitted for the absent identifier. -/
theorem c1_absent_slot_dropped_counterexample :
    (Spotify.fetch_audio_features noParse alwaysOtherErr [none] 50 3 5 false).1
        = ([] : List (Option Record))
      ∧ ([] : List (Option Record)).length ≠ [(none : Option TrackId)].length := by
  exact ⟨by decide, by decide⟩

/-- Claim C1, amended: provided every successful remote response carries one
record per requested identifier, the output length of the traditional
fetcher equals the number of truthy (non-None, nonempty-string) identifiers
in the input, not the input length: absent identifiers are dropped without a
marker, and a failed batch contributes one marker per truthy identifier of
its window. -/
theorem c1_output_length_amended (jsonLoads : String → Option (List (Option Record)))
    (oracle : Oracle) (ids : List (Option TrackId)) (bs r d : Nat) (hbs : bs ≠ 0)
    (H : ∀ k args recs, oracle k args = SpResponse.ok recs → recs.isEmpty = false →
      recs.length = args.length) :
    (Spotify.fetch_audio_features jsonLoads oracle ids bs r d false).1.length =
      (ids.filterMap truthyId).length := by
  show (Spotify.batchLoop oracle r d (windows bs ids) ⟨[], []⟩).1.length = _
  rw [Spotify.batchLoop_length oracle r d H (windows bs ids) ⟨[], []⟩,
    sum_filterMap_lengths truthyId (windows bs ids),
    join_windows bs hbs ids.length ids (Nat.le_refl _)]

/-- Witness for the amended claim C1, at a concrete mixed input and the
echoing lookup. -/
theorem c1_output_length_amended_witness :
    (Spotify.fetch_audio_features noParse echoFullOracle [some idA, none, some idB] 2 3 5 false).1.length
      = ([some idA, none, some idB].filterMap truthyId).length := by
  refine c1_output_length_amended noParse echoFullOracle [some idA, none, some idB] 2 3 5
    (by decide) ?_
  intro k args recs hok _
  have h2 : args.map (fun s => some (fullRec s)) = recs := SpResponse.ok.inj hok
  rw [← h2, List.length_map]

/-- Claim C7, counterexample: a position holding an absent identifier does
not yield an absent output marker; it yields nothing.  On the all-absent
input [None, None] the output is the empty list (with no remote call and no
sleep), not [None, None]. -/
theorem c7_absent_no_marker_counterexample :
    Spotify.fetch_audio_features noParse alwaysOtherErr [none, none] 50 3 5 false
        = (([] : List (Option Record)), ⟨[], []⟩)
      ∧ ([] : List (Option Record)) ≠ [none, none] := by
  exact ⟨by decide, by decide⟩

/-- Claim C7, amended: an input whose identifiers are all absent (falsy)
makes the traditional fetcher invoke the remote lookup zero times, sleep
zero times, and return the empty output: absent identifiers never trigger a
call and never consume retry budget, but they are dropped from the output
rather than marked. -/
theorem c7_all_absent_amended (jsonLoads : String → Option (List (Option Record)))
    (oracle : Oracle) (ids : List (Option TrackId)) (bs r d : Nat) (hbs : bs ≠ 0)
    (habs : ∀ o ∈ ids, truthyId o = none) :
    Spotify.fetch_audio_features jsonLoads oracle ids bs r d false = ([], ⟨[], []⟩) := by
  show Spotify.batchLoop oracle r d (windows bs ids) ⟨[], []⟩ = ([], ⟨[], []⟩)
  refine Spotify.batchLoop_skip oracle r d (windows bs ids) ⟨[], []⟩ ?_
  intro w hw
  have hf : w.filterMap truthyId = [] := by
    rw [List.filterMap_eq_nil_iff]
    intro o ho
    exact habs o (mem_of_mem_windows bs hbs ids w hw o ho)
  rw [hf]
  rfl

/-- Witness for the amended claim C7, at a concrete all-absent input. -/
theorem c7_all_absent_amended_witness :
    Spotify.fetch_audio_features noParse alwaysOtherErr [none, none, none] 7 3 5 false
      = ([], ⟨[], []⟩) :=
  c7_all_absent_amended noParse alwaysOtherErr [none, none, none] 7 3 5 (by decide) (by decide)

/-- Claim C9: with use_mcp (the default), fetch_audio_features of
src/Spotify.py returns [None] * len(track_ids) for every input and never
calls the spotipy lookup: the MCP placeholder returns the non-JSON string
Success, json.loads raises on it, get_audio_features catches the exception
and returns the all-None list of full input length, and the traditional
fallback path is never taken (the trace stays empty). -/
theorem c9_mcp_placeholder_all_none (jsonLoads : String → Option (List (Option Record)))
    (hjson : jsonLoads successStr = none) (oracle : Oracle)
    (ids : List (Option TrackId)) (bs r d : Nat) :
    Spotify.fetch_audio_features jsonLoads oracle ids bs r d true
      = (List.replicate ids.length none, ⟨[], []⟩) := by
  show (SpotifyMCPClient.get_audio_features jsonLoads ids, (⟨[], []⟩ : Trace)) = _
  rw [show SpotifyMCPClient.get_audio_features jsonLoads ids
      = (match jsonLoads successStr with
          | some parsed => parsed
          | none => List.replicate ids.length none) from rfl]
  rw [hjson]

/-- Witness for claim C9, at a concrete input with a parser that fails on
every string. -/
theorem c9_mcp_placeholder_all_none_witness :
    Spotify.fetch_audio_features noParse alwaysOtherErr [some idA, none] 50 3 5 true
      = (List.replicate 2 none, ⟨[], []⟩) :=
  c9_mcp_placeholder_all_none noParse rfl alwaysOtherErr [some idA, none] 50 3 5

/-- Claim C2, counterexample: in fetch_audio_features of src/Spotify.py a
rate-limited attempt does count against the retry budget.  With retries = 3
and a lookup that is rate limited on its first three calls and would succeed
from the fourth on, the three 429s exhaust the for-loop over attempts and
the batch fails to [None] — under the claimed policy the batch would have
succeeded. -/
theorem c2_rate_limit_counts_counterexample :
    Spotify.fetch_audio_features noParse rlThriceOracle [some idA] 50 3 5 false
        = ([none], ⟨[[idA], [idA], [idA]], [7, 7, 7]⟩)
      ∧ rlThriceOracle 3 [idA] = SpResponse.ok [some (fullRec idA)] := by
  exact ⟨by decide, by decide⟩

/-- Claim C2, amended: in SpotifyAudioFeatures.fetch_audio_features a
rate-limited attempt does not count against the budget — for every
max_retries ≥ 1 (even 1), a lookup rate limited twice and succeeding on the
third call yields the records after exactly three calls, sleeping the
server-provided wait (7) when present and the base delay (5) otherwise.  In
src/Spotify.py rate-limited attempts do consume the retry budget, but with
retries = 3 the same two-rate-limits-then-success lookup still succeeds on
the third call. -/
theorem c2_rate_limit_retry_amended (m : Nat) (hm : 1 ≤ m) :
    SpotifyAudioFeatures.fetch_audio_features rlTwiceOracle [some idA] 50 m 5 3
        = SafRun.ok [some (fullRec idA)] ⟨[[idA], [idA], [idA]], [7, 5]⟩
      ∧ Spotify.fetch_audio_features noParse rlTwiceOracle [some idA] 50 3 5 false
        = ([some (fullRec idA)], ⟨[[idA], [idA], [idA]], [7, 5]⟩) := by
  have h0 : 0 < m := hm
  constructor
  · show SpotifyAudioFeatures.batchLoop rlTwiceOracle m 5 3
        (windows (min 50 100) [some idA]) ⟨[], []⟩ = _
    rw [show windows (min 50 100) ([some idA] : List (Option TrackId)) = [[some idA]] from rfl]
    refine SpotifyAudioFeatures.batchLoop_single_success rlTwiceOracle m 5 3 [some idA]
      ⟨[], []⟩ _ _ (by decide) ?_
    rw [show ([some idA] : List (Option TrackId)).filterMap truthyId = [idA] from rfl]
    exact (SpotifyAudioFeatures.attemptLoop_rl_step rlTwiceOracle [idA] m 5 2 0 ⟨[], []⟩ h0
        (some 7) rfl).trans
      ((SpotifyAudioFeatures.attemptLoop_rl_step rlTwiceOracle [idA] m 5 1 0 ⟨[[idA]], [7]⟩
          h0 none rfl).trans
        (SpotifyAudioFeatures.attemptLoop_accept_step rlTwiceOracle [idA] m 5 0 0
          ⟨[[idA], [idA]], [7, 5]⟩ h0 [some (fullRec idA)] rfl (by decide)))
  · decide

/-- Witness for the amended claim C2, at the extreme budget max_retries = 1:
the two rate-limited calls do not consume it. -/
theorem c2_rate_limit_retry_amended_witness :
    SpotifyAudioFeatures.fetch_audio_features rlTwiceOracle [some idA] 50 1 5 3
      = SafRun.ok [some (fullRec idA)] ⟨[[idA], [idA], [idA]], [7, 5]⟩ :=
  (c2_rate_limit_retry_amended 1 (by decide)).1

/-- Claim C3, counterexample: with max_retries = 3, batch_size = 2, input
[a, b] and an always-failing lookup, SpotifyAudioFeatures.fetch_audio_features
does not return [None, None]: after the third failure it raises
SpotifyAudioFeaturesError (three calls, backoff sleeps 5 and 10), so the
run has no normal return value at all. -/
theorem c3_exhaustion_raises_counterexample :
    SpotifyAudioFeatures.fetch_audio_features alwaysOtherErr [some idA, some idB] 2 3 5 3
        = SafRun.raised ⟨[[idA, idB], [idA, idB], [idA, idB]], [5, 10]⟩
      ∧ (SpotifyAudioFeatures.fetch_audio_features alwaysOtherErr [some idA, some idB] 2 3 5 3).returned
        = none := by
  exact ⟨by decide, by decide⟩

/-- Claim C3, amended: on a batch whose lookup always fails with a
retryable error, fetch_audio_features of src/Spotify.py makes exactly
`retries` calls (for every retries, sleeping the base delay after each) and
then yields [None, None]; SpotifyAudioFeatures.fetch_audio_features makes
exactly max_retries = 3 calls and then raises SpotifyAudioFeaturesError
instead of yielding markers. -/
theorem c3_retry_exhaustion_amended :
    (∀ r : Nat, Spotify.fetch_audio_features noParse alwaysOtherErr [some idA, some idB] 2 r 5 false
        = ([none, none], ⟨List.replicate r [idA, idB], List.replicate r 5⟩))
      ∧ SpotifyAudioFeatures.fetch_audio_features alwaysOtherErr [some idA, some idB] 2 3 5 3
        = SafRun.raised ⟨[[idA, idB], [idA, idB], [idA, idB]], [5, 10]⟩ := by
  constructor
  · intro r
    have hA : Spotify.attemptLoop alwaysOtherErr [idA, idB] 5 r ⟨[], []⟩
        = (none, ⟨List.replicate r [idA, idB], List.replicate r 5⟩) := by
      have h := Spotify.attemptLoop_const_other alwaysOtherErr [idA, idB] 5
        (fun _ => rfl) r ⟨[], []⟩
      exact h
    show Spotify.batchLoop alwaysOtherErr r 5 (windows 2 [some idA, some idB]) ⟨[], []⟩ = _
    rw [show windows 2 ([some idA, some idB] : List (Option TrackId))
        = [[some idA, some idB]] from rfl]
    have hs := Spotify.batchLoop_single_fail alwaysOtherErr r 5 [some idA, some idB]
      ⟨[], []⟩ ⟨List.replicate r [idA, idB], List.replicate r 5⟩ (by decide) (by exact hA)
    rw [hs]
    exact rfl
  · decide

/-- Claim C5, counterexample: a batch whose remote call raises Forbidden
(403) on the first attempt is not abandoned after exactly one call: the
code has no fatal classification, so with retries = 3 it makes three calls
(sleeping the base delay after each) before yielding the marker. -/
theorem c5_forbidden_retried_counterexample :
    (Spotify.fetch_audio_features noParse alwaysForbidden [some idA] 50 3 5 false).2.calls.length = 3
      ∧ (3 : Nat) ≠ 1 := by
  exact ⟨by decide, by decide⟩

/-- Claim C5, amended: Forbidden (403) is treated like any other non-429
error, not as fatal.  fetch_audio_features of src/Spotify.py retries the
batch: exactly `retries` calls (for every retries) and then [None];
SpotifyAudioFeatures.fetch_audio_features makes max_retries = 3 calls and
then raises SpotifyAudioFeaturesError. -/
theorem c5_forbidden_amended :
    (∀ r : Nat, Spotify.fetch_audio_features noParse alwaysForbidden [some idA] 50 r 5 false
        = ([none], ⟨List.replicate r [idA], List.replicate r 5⟩))
      ∧ SpotifyAudioFeatures.fetch_audio_features alwaysForbidden [some idA] 50 3 5 3
        = SafRun.raised ⟨[[idA], [idA], [idA]], [5, 10]⟩ := by
  constructor
  · intro r
    have hA : Spotify.attemptLoop alwaysForbidden [idA] 5 r ⟨[], []⟩
        = (none, ⟨List.replicate r [idA], List.replicate r 5⟩) := by
      have h := Spotify.attemptLoop_const_http alwaysForbidden [idA] 5 403
        (fun _ => rfl) r ⟨[], []⟩
      exact h
    show Spotify.batchLoop alwaysForbidden r 5 (windows 50 [some idA]) ⟨[], []⟩ = _
    rw [show windows 50 ([some idA] : List (Option TrackId)) = [[some idA]] from rfl]
    have hs := Spotify.batchLoop_single_fail alwaysForbidden r 5 [some idA]
      ⟨[], []⟩ ⟨List.replicate r [idA], List.replicate r 5⟩ (by decide) (by exact hA)
    rw [hs]
    exact rfl
  · decide

/-- Claim C4, counterexample: a remote error can abort the overall run.
With a lookup that always raises a 500 SpotifyException,
SpotifyAudioFeatures.fetch_audio_features raises SpotifyAudioFeaturesError
to its caller after exhausting the three attempts, instead of resolving the
batch to absent markers. -/
theorem c4_saf_raises_counterexample :
    SpotifyAudioFeatures.fetch_audio_features alwaysServerErr [some idA] 50 3 5 3
      = SafRun.raised ⟨[[idA], [idA], [idA]], [5, 10]⟩ := by
  decide

/-- Claim C4, amended: fetch_audio_features of src/Spotify.py never raises
(its model is a total function into plain results): a batch that exhausts
its retries degrades to markers and processing continues with the next
batch — with a lookup failing on the first three calls and succeeding
afterwards, batch [a, b] resolves to [None, None] and batch [c] is still
fetched successfully.  SpotifyAudioFeatures.fetch_audio_features, by
contrast, raises SpotifyAudioFeaturesError on exhaustion, aborting the
run with no normal return. -/
theorem c4_partial_failure_amended :
    Spotify.fetch_audio_features noParse failThriceOracle [some idA, some idB, some idC] 2 3 5 false
        = ([none, none, some (fullRec idC)],
            ⟨[[idA, idB], [idA, idB], [idA, idB], [idC]], [5, 5, 5]⟩)
      ∧ (SpotifyAudioFeatures.fetch_audio_features alwaysServerErr [some idA] 50 3 5 3).returned
        = none := by
  exact ⟨by decide, by decide⟩

/-- Claim C6: with a lookup that echoes one deterministic record per
requested identifier, the traditional fetcher reproduces exactly those
records, in input order, and its remote calls are exactly the
batch_size-sized windows of the input. -/
theorem c6_round_trip_echo (jsonLoads : String → Option (List (Option Record)))
    (oracle : Oracle) (rec : TrackId → Record) (bs retries d : Nat)
    (hbs : bs ≠ 0) (hr : retries ≠ 0)
    (Hecho : ∀ k args, oracle k args = SpResponse.ok (args.map fun s => some (rec s)))
    (ids : List TrackId) (hid : ∀ s ∈ ids, s ≠ "") :
    Spotify.fetch_audio_features jsonLoads oracle (ids.map some) bs retries d false
      = (ids.map fun s => some (rec s), ⟨windows bs ids, []⟩) := by
  have hcond : ∀ w ∈ windows bs ids, w ≠ [] ∧ ∀ s ∈ w, s ≠ "" := by
    intro w hw
    exact ⟨windows_ne_nil bs hbs ids.length ids (Nat.le_refl _) w hw,
      fun s hs => hid s (mem_of_mem_windows bs hbs ids w hw s hs)⟩
  show Spotify.batchLoop oracle retries d (windows bs (ids.map some)) ⟨[], []⟩ = _
  rw [windows_map bs hbs some ids.length ids (Nat.le_refl _)]
  rw [Spotify.batchLoop_echo oracle rec retries d hr Hecho (windows bs ids) ⟨[], []⟩ hcond]
  have h1 : ((windows bs ids).map fun w => w.map fun s => some (rec s)).flatten
      = ids.map fun s => some (rec s) := by
    rw [show ((windows bs ids).map fun w => w.map fun s => some (rec s))
        = (windows bs ids).map (List.map fun s => some (rec s)) from rfl]
    rw [← List.map_flatten]
    rw [join_windows bs hbs ids.length ids (Nat.le_refl _)]
  rw [h1]
  exact rfl

/-- Witness for claim C6: batch_size = 2 on input [a, b, c] reproduces the
three echoed records using the two windows [a, b] and [c]. -/
theorem c6_round_trip_echo_witness :
    Spotify.fetch_audio_features noParse echoFullOracle ([idA, idB, idC].map some) 2 3 5 false
      = ([idA, idB, idC].map fun s => some (fullRec s), ⟨windows 2 [idA, idB, idC], []⟩) :=
  c6_round_trip_echo noParse echoFullOracle fullRec 2 3 5 (by decide) (by decide)
    (fun _ _ => rfl) [idA, idB, idC] (by decide)

/-- Claim C8, counterexample: get_track_ids_from_uris of src/Spotify.py
does not map malformed references to None: the string abc has no colon
delimiter and length 3 (wrong segment count, unexpected length), yet it is
returned as the identifier abc rather than None. -/
theorem c8_malformed_passthrough_counterexample :
    Spotify.get_track_ids_from_uris [PyVal.str abcStr] = [some abcStr]
      ∧ abcStr.length ≠ 22 ∧ some abcStr ≠ (none : Option String) := by
  exact ⟨by decide, by decide, by decide⟩

/-- Claim C8, amended: both extraction functions are pure, length
preserving and never raise; missing and non-string entries map to None in
both.  The SpotifyAudioFeatures version additionally maps any entry whose
candidate identifier does not have exactly 22 characters to None, while the
src/Spotify.py version performs no length or segment-count validation and
maps every string to its last colon-separated segment. -/
theorem c8_extraction_amended :
    (∀ l : List PyVal, (Spotify.get_track_ids_from_uris l).length = l.length
      ∧ (SpotifyAudioFeatures.get_track_ids_from_uris l).length = l.length)
    ∧ Spotify.get_track_ids_from_uris [PyVal.na, PyVal.other] = [none, none]
    ∧ SpotifyAudioFeatures.get_track_ids_from_uris [PyVal.na, PyVal.other] = [none, none]
    ∧ (∀ s : String, (SpotifyAudioFeatures.candidateId s).length ≠ 22 →
        SpotifyAudioFeatures.extractTrackId (PyVal.str s) = none)
    ∧ (∀ s : String, Spotify.extractTrackId (PyVal.str s) = some (pySplitLast s)) := by
  refine ⟨?_, by decide, by decide, ?_, fun s => rfl⟩
  · intro l
    constructor
    · exact List.length_map l Spotify.extractTrackId
    · exact List.length_map l SpotifyAudioFeatures.extractTrackId
  · intro s h
    simp only [SpotifyAudioFeatures.extractTrackId, if_neg h]

/-- Witness for the amended claim C8: the length-3 candidate abc is mapped
to None by the SpotifyAudioFeatures extraction. -/
theorem c8_extraction_amended_witness :
    SpotifyAudioFeatures.extractTrackId (PyVal.str abcStr) = none :=
  c8_extraction_amended.2.2.2.1 abcStr (by decide)

theorem matchField_iff (o : Option (Option String)) :
    (match o with
      | some (some _) => true
      | _ => false) = true ↔ ∃ v, o = some (some v) := by
  rcases o with _ | v
  · simp
  · rcases v with _ | v <;> simp

theorem validate_features_iff (r : Record) :
    AudioFeatureValidator.validate_features r = true ↔
      (r.isEmpty = false ∧ ∀ f ∈ AudioFeatureValidator.REQUIRED_FEATURES,
        ∃ v, r.lookup f = some (some v)) := by
  unfold AudioFeatureValidator.validate_features
  by_cases hre : r.isEmpty = true
  · rw [if_pos hre]
    simp [hre]
  · rw [if_neg hre]
    rw [List.all_eq_true]
    simp only [Bool.not_eq_true] at hre
    constructor
    · intro hall
      exact ⟨hre, fun f hf => (matchField_iff _).mp (hall f hf)⟩
    · rintro ⟨_, hall⟩ f hf
      exact (matchField_iff _).mpr (hall f hf)

theorem entryOk_iff (o : Option Record) :
    SpotifyAudioFeatures.entryOk o = true ↔
      (o = none ∨ o = some [] ∨ ∃ r, o = some r ∧
        ∀ f ∈ AudioFeatureValidator.REQUIRED_FEATURES, ∃ v, r.lookup f = some (some v)) := by
  rcases o with _ | r
  · simp [SpotifyAudioFeatures.entryOk]
  · simp only [SpotifyAudioFeatures.entryOk, Bool.or_eq_true]
    constructor
    · rintro (hre | hv)
      · right; left
        rw [List.isEmpty_iff.mp hre]
      · rcases (validate_features_iff r).mp hv with ⟨_, hall⟩
        exact Or.inr (Or.inr ⟨r, rfl, hall⟩)
    · rintro (h | h | ⟨r2, hr2, hall⟩)
      · exact absurd h (by simp)
      · left
        rw [Option.some.inj h]
        rfl
      · have hrr : r = r2 := Option.some.inj hr2
        rw [← hrr] at hall
        by_cases hre : r.isEmpty = true
        · exfalso
          rcases hq : AudioFeatureValidator.REQUIRED_FEATURES with _ | ⟨f0, rest⟩
          · exact absurd hq (by decide)
          · have hmem : f0 ∈ AudioFeatureValidator.REQUIRED_FEATURES := by
              rw [hq]
              exact List.mem_cons_self f0 rest
            rcases hall f0 hmem with ⟨v, hv⟩
            rw [List.isEmpty_iff.mp hre] at hv
            simp [List.lookup] at hv
        · right
          rw [validate_features_iff]
          simp only [Bool.not_eq_true] at hre
          exact ⟨hre, hall⟩

/-- Claim C10, counterexample: a response whose only entry is a non-null
record missing every one of the twelve required fields — the empty dict —
is accepted as success on the first call, not treated as a failure: Python
`not f` is true for an empty dict, so it slips past validation, and the
batch resolves to that record with exactly one call and no retry. -/
theorem c10_empty_record_accepted_counterexample :
    SpotifyAudioFeatures.fetch_audio_features emptyRecOracle [some idA] 50 3 5 3
        = SafRun.ok [some ([] : Record)] ⟨[[idA]], []⟩
      ∧ AudioFeatureValidator.validate_features ([] : Record) = false := by
  exact ⟨by decide, by decide⟩

/-- Claim C10, amended: a response is accepted exactly when it is nonempty
and every entry is null, an empty record, or a record carrying all twelve
required fields with non-null values; and a rejected response, when retry
budget remains, consumes one unit of it and re-fetches the same whole
batch after sleeping retry_delay * retry_count. -/
theorem c10_validation_amended :
    (∀ recs : List (Option Record), SpotifyAudioFeatures.acceptBatch recs = true ↔
      (recs ≠ [] ∧ ∀ o ∈ recs, o = none ∨ o = some [] ∨ ∃ r, o = some r ∧
        ∀ f ∈ AudioFeatureValidator.REQUIRED_FEATURES, ∃ v, r.lookup f = some (some v)))
    ∧ (∀ (oracle : Oracle) (b : List TrackId) (m d fuel rc : Nat) (tr : Trace)
        (recs : List (Option Record)),
        oracle tr.calls.length b = SpResponse.ok recs →
        SpotifyAudioFeatures.acceptBatch recs = false →
        rc + 1 < m →
        SpotifyAudioFeatures.attemptLoop oracle b m d (fuel + 1) rc tr =
          SpotifyAudioFeatures.attemptLoop oracle b m d fuel (rc + 1)
            ⟨tr.calls ++ [b], tr.sleeps ++ [d * (rc + 1)]⟩) := by
  constructor
  · intro recs
    unfold SpotifyAudioFeatures.acceptBatch
    rw [Bool.and_eq_true, List.all_eq_true]
    constructor
    · rintro ⟨h1, h2⟩
      refine ⟨?_, fun o ho => (entryOk_iff o).mp (h2 o ho)⟩
      intro hnil
      subst hnil
      simp at h1
    · rintro ⟨h1, h2⟩
      refine ⟨?_, fun o ho => (entryOk_iff o).mpr (h2 o ho)⟩
      cases recs with
      | nil => exact absurd rfl h1
      | cons a l => rfl
  · intro oracle b m d fuel rc tr recs ho hacc hlt
    exact SpotifyAudioFeatures.attemptLoop_reject_step oracle b m d fuel rc tr hlt recs ho hacc

/-- Witness for the amended claim C10: a single-entry response holding a
nonempty record with a missing (null) field is rejected and consumes one
retry unit, re-fetching the same batch. -/
theorem c10_validation_amended_witness :
    SpotifyAudioFeatures.attemptLoop alwaysInvalidOracle [idA] 3 5 1 0 ⟨[], []⟩
      = SpotifyAudioFeatures.attemptLoop alwaysInvalidOracle [idA] 3 5 0 1 ⟨[[idA]], [5]⟩ :=
  c10_validation_amended.2 alwaysInvalidOracle [idA] 3 5 0 0 ⟨[], []⟩ [some oneFieldRec]
    rfl (by decide) (by decide)
